import Mathlib

/-!
Verification of kookymonster

A verification development for `kookymonster.go`: a small HTTP server that loads a YAML
configuration beside its executable, serves one fixed text on two routes and shuts down
gracefully on an interrupt.

The program is embedded as follows.

* Calls into the operating system and the libraries (`os.Executable`, `filepath.Abs`,
  `os.OpenFile`, `os.Open`, `ioutil.ReadAll`, `yaml.Unmarshal`) are fields of a `World`:
  every theorem quantifies over all worlds.
* Every observable action of the process is an `Effect`; a run produces a chronological
  `List Effect`.
* `loadConfig` and the sequential part of `main` (lines 85-127) are functions of the world.
* From `signal.Notify` on, `main` and the shutdown goroutine run concurrently; this part is a
  deterministic `step` function driven by a list of `Event`s (scheduler choices, interrupt
  deliveries and the moments at which the two blocking library calls return, with their
  results). One step is one statement of one goroutine. Theorems quantify over all event
  lists, so over all interleavings and all results of `ListenAndServe` and `Shutdown`.
* Logging is the call of the logger with a line; the prefix and the time stamp that the logger
  adds, and the delivery of the line by its writer, are not part of the model.
* The handler `answer` acts on a model of `http.ResponseWriter`.
-/

namespace Kookymonster

/-! ## Constants and data -/

/-- The constant `configFileName`. -/
def configFileName : String := "config.yml"

/-- The constant `answerText`. -/
def answerText : String := "placeholder"

/-- The file name of the log file, joined to the executable directory in `main`. -/
def logFileName : String := "kookymonster.log"

/-- The value of `time.Second`, in nanoseconds (the unit of `time.Duration`). -/
def second : Nat := 1000000000

/-- The value of `http.StatusOK`. -/
def StatusOK : Nat := 200

/-- The struct `Config`. -/
structure Config where
  ListenAddr : String
  Broken : Bool
deriving DecidableEq

/-- Go error values. `errServerClosed` is the sentinel `http.ErrServerClosed`, which `main`
compares by identity; every other error is identified by its text. -/
inductive GoError
  | errServerClosed
  | other (text : String)
deriving DecidableEq

/-- The method `Error()` of an error value, used by the `%v` verb and by `fmt.Sprint`. -/
def GoError.Error : GoError → String
  | .errServerClosed => "http: Server closed"
  | .other text => text

/-- The two places that call `getExeDir`. -/
inductive Site
  | main
  | loadConfig
deriving DecidableEq

/-- The outside world as seen by the sequential start-up code: the result of every call that
leaves the program. `none` in an `Option GoError` is the nil error. -/
structure World where
  /-- The call `os.Executable()`, per calling site. -/
  executable : Site → Except GoError String
  /-- The pure function `filepath.Dir`. -/
  dir : String → String
  /-- The call `filepath.Abs`, per calling site. -/
  abs : Site → String → Except GoError String
  /-- The pure function `path.Join` at two arguments. -/
  join : String → String → String
  /-- The error result of `os.OpenFile(path, O_RDWR|O_CREATE|O_APPEND, 0666)`. -/
  osOpenFile : String → Option GoError
  /-- The error result of `os.Open(path)`. -/
  osOpen : String → Option GoError
  /-- The call `ioutil.ReadAll` on the opened file at the given path. -/
  readAll : String → Except GoError String
  /-- The call `yaml.Unmarshal(bytes, &c)`: an error, or the record as filled in from the
  record `c` it was handed (a document that would leave the pointer nil is outside this
  model). -/
  unmarshal : String → Config → Except GoError Config

/-! ## The HTTP handlers -/

/-- An incoming `*http.Request`, as far as a handler can inspect it. -/
structure Request where
  Method : String
  Path : String
  Header : List (String × String)
  Body : String
deriving DecidableEq

/-- The state of an `http.ResponseWriter`: the header map under construction, the status code
once written, the header map as it stood when the status was written (what goes on the wire),
and the body bytes written so far. -/
structure ResponseWriter where
  header : List (String × String)
  status : Option Nat
  sent : List (String × String)
  body : String
deriving DecidableEq

/-- The response writer handed to a handler: nothing set, nothing written. -/
def ResponseWriter.fresh : ResponseWriter :=
  { header := [], status := none, sent := [], body := "" }

/-- The call `resp.Header().Set(key, value)`: the entry for the key is replaced. -/
def ResponseWriter.Set (resp : ResponseWriter) (key value : String) : ResponseWriter :=
  { resp with header := (key, value) :: resp.header.filter (fun kv => kv.1 != key) }

/-- The call `resp.WriteHeader(code)`: the first call fixes the status and the headers sent;
later calls have no effect. -/
def ResponseWriter.WriteHeader (resp : ResponseWriter) (code : Nat) : ResponseWriter :=
  match resp.status with
  | some _ => resp
  | none => { resp with status := some code, sent := resp.header }

/-- The call `resp.Write(data)`: writes the status 200 first when none was written. -/
def ResponseWriter.Write (resp : ResponseWriter) (data : String) : ResponseWriter :=
  let resp := resp.WriteHeader StatusOK
  { resp with body := resp.body ++ data }

/-- The call `fmt.Fprintln(resp, s)`: the operand followed by a newline. -/
def Fprintln (resp : ResponseWriter) (s : String) : ResponseWriter :=
  resp.Write (s ++ "\n")

/-- The handler functions defined in the program. -/
inductive Handler
  | index
  | answer
deriving DecidableEq

/-- The handler returned by `index()`. -/
def index (_req : Request) (resp : ResponseWriter) : ResponseWriter :=
  resp.WriteHeader StatusOK

/-- The handler returned by `answer()`. -/
def answer (_req : Request) (resp : ResponseWriter) : ResponseWriter :=
  let resp := resp.Set "Content-Type" "text/plain; charset=utf-8"
  let resp := resp.Set "X-Content-Type-Options" "nosniff"
  let resp := resp.WriteHeader StatusOK
  Fprintln resp ("The answer is: " ++ answerText)

/-- The method `ServeHTTP` of a handler. -/
def Handler.ServeHTTP : Handler → Request → ResponseWriter → ResponseWriter
  | .index => Kookymonster.index
  | .answer => Kookymonster.answer

/-- A `*http.ServeMux`: the registered patterns with their handlers, in registration order. -/
abbrev ServeMux := List (String × Handler)

/-- The call `http.NewServeMux()`. -/
def NewServeMux : ServeMux := []

/-- The call `router.Handle(pattern, handler)`. -/
def ServeMux.Handle (router : ServeMux) (pattern : String) (handler : Handler) : ServeMux :=
  router ++ [(pattern, handler)]

/-- The handler registered under a pattern. -/
def ServeMux.registered (router : ServeMux) (pattern : String) : Option Handler :=
  router.lookup pattern

/-- The fields of `http.Server` that `main` sets (`ErrorLog` is the one global logger). -/
structure Server where
  Addr : String
  Handler : ServeMux
  ReadTimeout : Nat
  WriteTimeout : Nat
  IdleTimeout : Nat
deriving DecidableEq

/-- The router built in `main` (lines 107-110). -/
def mkRouter : ServeMux :=
  let router := NewServeMux
  let router := router.Handle "/answer" .answer
  let router := router.Handle "/" .answer
  router

/-- The server built in `main` (lines 112-119). -/
def mkServer (conf : Config) (router : ServeMux) : Server :=
  { Addr := conf.ListenAddr
    Handler := router
    ReadTimeout := 5 * second
    WriteTimeout := 10 * second
    IdleTimeout := 15 * second }

/-- The deadline of the context `ctx` of the shutdown goroutine: the duration handed to
`context.WithTimeout` (line 133). -/
def shutdownTimeout : Nat := 30 * second

/-! ## Effects -/

/-- The lines handed to the logger, one constructor per logging statement. -/
inductive LogLine
  | starting
  | pathFailed (err : GoError)
  | openFailed (configPath : String) (err : GoError)
  | readFailed (err : GoError)
  | unmarshalFailed (configPath : String) (err : GoError)
  | loaded (configPath : String)
  | broken
  | ready (addr : String)
  | shuttingDown
  | shutdownFailed (err : GoError)
  | listenFailed (addr : String) (err : GoError)
  | stopped
deriving DecidableEq

/-- The string each logging statement hands to the logger (before the logger adds its
prefix and time stamp): `Println` joins with spaces and ends the line, `Fatal` concatenates
as `fmt.Sprint` does for a string followed by an error, `Fatalf` formats. -/
def LogLine.text : LogLine → String
  | .starting => "Server is starting...\n"
  | .pathFailed err => "unable to process path for config file: " ++ err.Error
  | .openFailed configPath err =>
      "Config file does not exist or is unable to be opened: " ++ configPath ++ err.Error
  | .readFailed err => err.Error
  | .unmarshalFailed configPath err =>
      "failed to unmarshal config from " ++ configPath ++ ": " ++ err.Error
  | .loaded configPath => "Successfully loaded configuration from " ++ configPath
  | .broken => "Service failed; invalid configuration\n"
  | .ready addr => "Server is ready to handle reqs at " ++ addr ++ "\n"
  | .shuttingDown => "Server is shutting down...\n"
  | .shutdownFailed err =>
      "Could not gracefully shutdown the server: " ++ err.Error ++ "\n"
  | .listenFailed addr err => "Could not listen on " ++ addr ++ ": " ++ err.Error ++ "\n"
  | .stopped => "Server stopped\n"

/-- The text that `fmt.Printf("ERROR - unable to open logfile: %v\n", err)` prints. -/
def logfileErrorText (err : GoError) : String :=
  "ERROR - unable to open logfile: " ++ err.Error ++ "\n"

/-- The observable actions of the process, in the order of the source. -/
inductive Effect
  /-- The call `os.OpenFile` for the log file, with its error result. -/
  | openLogFile (logPath : String) (err : Option GoError)
  /-- A call of the logger (`Println`, `Print`, or the logging half of `Fatal`/`Fatalf`). -/
  | log (line : LogLine)
  /-- A `fmt.Printf` on standard output. -/
  | print (text : String)
  /-- The call `os.Open` for the configuration file. -/
  | openConfig (configPath : String)
  /-- The call `ioutil.ReadAll` on the configuration file. -/
  | readConfig
  /-- The call `yaml.Unmarshal`. -/
  | unmarshalConfig
  /-- The deferred `configFile.Close()`. -/
  | closeConfig
  /-- The call `router.Handle(pattern, handler)`. -/
  | handle (pattern : String) (handler : Handler)
  /-- The construction of the `http.Server`. -/
  | newServer (server : Server)
  /-- The call `signal.Notify(quit, os.Interrupt)`. -/
  | notify
  /-- The statement `go func() ...`. -/
  | spawn
  /-- The operating system delivers an interrupt to the process. -/
  | interrupt
  /-- The receive `<-quit` completes. -/
  | recvQuit
  /-- The call `context.WithTimeout(context.Background(), d)`. -/
  | withTimeout (d : Nat)
  /-- The call `server.SetKeepAlivesEnabled(b)`. -/
  | setKeepAlivesEnabled (b : Bool)
  /-- The call `server.Shutdown(ctx)` is made, with the deadline of `ctx`. -/
  | shutdownCall (deadline : Nat)
  /-- The call `server.Shutdown(ctx)` returns. -/
  | shutdownReturn (err : Option GoError)
  /-- The statement `close(done)`. -/
  | closeDone
  /-- The deferred `cancel()`. -/
  | cancel
  /-- The call `server.ListenAndServe()` is made: the listener is bound to the address. -/
  | listenAndServe (addr : String)
  /-- The call `server.ListenAndServe()` returns. -/
  | listenReturn (err : Option GoError)
  /-- The receive `<-done` completes. -/
  | recvDone
  /-- A run-time panic (closing a closed channel). -/
  | panic
  /-- The process terminates with the given status (`os.Exit`, or `main` returning). -/
  | exit (code : Nat)
deriving DecidableEq

/-- How a function ends: it returns a value, or the process has exited inside it. -/
inductive Outcome (α : Type)
  | returned (a : α)
  | exited (code : Nat)

/-! ## Configuration loading -/

/-- The function `getExeDir`: the directory and the error (nil as `none`). -/
def getExeDir (w : World) (site : Site) : String × Option GoError :=
  match w.executable site with
  | .error err => ("", some err)
  | .ok ex =>
    match w.abs site (w.dir ex) with
    | .error err => ("", some err)
    | .ok dir => (dir, none)

/-- The function `loadConfig`: the effects it performs and how it ends. `logger.Fatal` and
`logger.Fatalf` log and then call `os.Exit(1)`, which skips the deferred close. -/
def loadConfig (w : World) : List Effect × Outcome Config :=
  let c : Config := { ListenAddr := "", Broken := false }
  match getExeDir w .loadConfig with
  | (_, some err) => ([.log (.pathFailed err), .exit 1], .exited 1)
  | (exeDir, none) =>
    let configPath := w.join exeDir configFileName
    match w.osOpen configPath with
    | some err =>
      ([.openConfig configPath, .log (.openFailed configPath err), .exit 1], .exited 1)
    | none =>
      match w.readAll configPath with
      | .error err =>
        ([.openConfig configPath, .readConfig, .log (.readFailed err), .exit 1], .exited 1)
      | .ok configBytes =>
        match w.unmarshal configBytes c with
        | .error err =>
          ([.openConfig configPath, .readConfig, .unmarshalConfig,
            .log (.unmarshalFailed configPath err), .exit 1], .exited 1)
        | .ok c =>
          ([.openConfig configPath, .readConfig, .unmarshalConfig,
            .log (.loaded configPath), .closeConfig], .returned c)

/-! ## The process -/

/-- Where the main goroutine stands. -/
inductive MainPC
  /-- In (or terminated during) the sequential start-up, lines 86-127. -/
  | startup
  /-- Before `go func() ...` (line 129). -/
  | spawn
  /-- Before the "ready" log line (line 143). -/
  | logReady
  /-- Before the call of `ListenAndServe` (line 144). -/
  | listenCall
  /-- Inside `ListenAndServe`. -/
  | inListen
  /-- After `ListenAndServe` returned a fatal error; before `logger.Fatalf` (line 145). -/
  | listenFatal (err : GoError)
  /-- At the receive `<-done` (line 148). -/
  | waitDone
  /-- Before the "stopped" log line (line 149), after which `main` returns. -/
  | logStopped
deriving DecidableEq

/-- Where the shutdown goroutine stands. -/
inductive GorPC
  | notStarted
  /-- At the receive `<-quit` (line 130). -/
  | waitQuit
  /-- Before the "shutting down" log line (line 131). -/
  | logShutting
  /-- Before `context.WithTimeout` (line 133). -/
  | withTimeout
  /-- Before `server.SetKeepAlivesEnabled(false)` (line 136). -/
  | setKeepAlives
  /-- Before the call of `server.Shutdown(ctx)` (line 137). -/
  | shutdownCall
  /-- Inside `server.Shutdown`. -/
  | inShutdown
  /-- After `Shutdown` returned an error; before `logger.Fatalf` (line 138). -/
  | shutdownFatal (err : GoError)
  /-- Before `close(done)` (line 140). -/
  | closeDone
  /-- Before the deferred `cancel()`. -/
  | deferredCancel
  | finished
deriving DecidableEq

/-- The state of the process. -/
structure State where
  main : MainPC
  gor : GorPC
  /-- The number of signals buffered in the channel `quit` (capacity 1). -/
  quit : Nat
  /-- Whether the channel `done` is closed. -/
  done : Bool
  /-- The exit status once the process has terminated. -/
  exited : Option Nat
  /-- The effects so far, oldest first. -/
  trace : List Effect
deriving DecidableEq

/-- The sequential part of `main`, lines 86-127: the effects performed, and either the exit
status or the configuration and server with which the concurrent part starts. The variable
`err` of `main` is the error of `os.OpenFile`; `loadConfig` has its own local `err`. -/
def startup (w : World) : List Effect × Outcome (Config × Server) :=
  let exeDir := (getExeDir w .main).1
  let logPath := w.join exeDir logFileName
  let err := w.osOpenFile logPath
  let t := [Effect.openLogFile logPath err, .log .starting]
  match loadConfig w with
  | (tc, .exited code) => (t ++ tc, .exited code)
  | (tc, .returned conf) =>
    match err with
    | some err => (t ++ tc ++ [.print (logfileErrorText err), .exit 1], .exited 1)
    | none =>
      if conf.Broken then
        (t ++ tc ++ [.log .broken, .exit 1], .exited 1)
      else
        let router := mkRouter
        let server := mkServer conf router
        (t ++ tc ++ [.handle "/answer" .answer, .handle "/" .answer, .newServer server,
          .notify], .returned (conf, server))

/-- What drives the concurrent part of a run. -/
inductive Event
  /-- The main goroutine executes its next statement (nothing happens if it is blocked). -/
  | main
  /-- The shutdown goroutine executes its next statement (nothing if it is blocked). -/
  | gor
  /-- The operating system delivers an interrupt signal. -/
  | interrupt
  /-- The pending call of `ListenAndServe` returns with this error. -/
  | listenReturns (err : Option GoError)
  /-- The pending call of `Shutdown` returns with this error. -/
  | shutdownReturns (err : Option GoError)
deriving DecidableEq

/-- Append effects to the trace. -/
def State.emit (s : State) (es : List Effect) : State :=
  { s with trace := s.trace ++ es }

/-- The process terminates with a status. -/
def State.halt (s : State) (code : Nat) : State :=
  { s with exited := some code, trace := s.trace ++ [.exit code] }

/-- One statement of the main goroutine, lines 129-150. -/
def stepMain (conf : Config) (server : Server) (s : State) : State :=
  match s.main with
  | .startup => s
  | .spawn => { s.emit [.spawn] with main := .logReady, gor := .waitQuit }
  | .logReady => { s.emit [.log (.ready conf.ListenAddr)] with main := .listenCall }
  | .listenCall => { s.emit [.listenAndServe server.Addr] with main := .inListen }
  | .inListen => s
  | .listenFatal err => (s.emit [.log (.listenFailed conf.ListenAddr err)]).halt 1
  | .waitDone => if s.done then { s.emit [.recvDone] with main := .logStopped } else s
  | .logStopped => (s.emit [.log .stopped]).halt 0

/-- The return of `ListenAndServe` and the test of line 144. -/
def stepListenReturns (s : State) (err : Option GoError) : State :=
  match s.main with
  | .inListen =>
    match err with
    | none => { s.emit [.listenReturn none] with main := .waitDone }
    | some e =>
      if e ≠ .errServerClosed then { s.emit [.listenReturn (some e)] with main := .listenFatal e }
      else { s.emit [.listenReturn (some e)] with main := .waitDone }
  | _ => s

/-- One statement of the shutdown goroutine, lines 130-141. -/
def stepGor (s : State) : State :=
  match s.gor with
  | .notStarted => s
  | .waitQuit =>
    if 0 < s.quit then { s.emit [.recvQuit] with gor := .logShutting, quit := s.quit - 1 }
    else s
  | .logShutting => { s.emit [.log .shuttingDown] with gor := .withTimeout }
  | .withTimeout => { s.emit [.withTimeout shutdownTimeout] with gor := .setKeepAlives }
  | .setKeepAlives => { s.emit [.setKeepAlivesEnabled false] with gor := .shutdownCall }
  | .shutdownCall => { s.emit [.shutdownCall shutdownTimeout] with gor := .inShutdown }
  | .inShutdown => s
  | .shutdownFatal err => (s.emit [.log (.shutdownFailed err)]).halt 1
  | .closeDone =>
    if s.done then (s.emit [.panic]).halt 2
    else { s.emit [.closeDone] with gor := .deferredCancel, done := true }
  | .deferredCancel => { s.emit [.cancel] with gor := .finished }
  | .finished => s

/-- The return of `Shutdown` and the test of line 137. -/
def stepShutdownReturns (s : State) (err : Option GoError) : State :=
  match s.gor with
  | .inShutdown =>
    match err with
    | none => { s.emit [.shutdownReturn none] with gor := .closeDone }
    | some e => { s.emit [.shutdownReturn (some e)] with gor := .shutdownFatal e }
  | _ => s

/-- The delivery of an interrupt after `signal.Notify(quit, os.Interrupt)`: the signal package
sends without blocking, so the signal is dropped when the buffer of `quit` is full. -/
def stepInterrupt (s : State) : State :=
  if s.quit < 1 then { s.emit [.interrupt] with quit := s.quit + 1 } else s.emit [.interrupt]

/-- One step of the process; a terminated process does nothing. -/
def step (conf : Config) (server : Server) (s : State) (ev : Event) : State :=
  match s.exited with
  | some _ => s
  | none =>
    match ev with
    | .main => stepMain conf server s
    | .gor => stepGor s
    | .interrupt => stepInterrupt s
    | .listenReturns err => stepListenReturns s err
    | .shutdownReturns err => stepShutdownReturns s err

/-- The state in which the concurrent part starts. -/
def serving (t : List Effect) : State :=
  { main := .spawn, gor := .notStarted, quit := 0, done := false, exited := none, trace := t }

/-- A run of `main` in a world under a schedule of events. -/
def main (w : World) (sched : List Event) : State :=
  match startup w with
  | (t, .exited code) =>
    { main := .startup, gor := .notStarted, quit := 0, done := false, exited := some code,
      trace := t }
  | (t, .returned (conf, server)) => sched.foldl (step conf server) (serving t)

/-- The path of the log file as `main` computes it (lines 86-88). -/
def logPath (w : World) : String :=
  w.join (getExeDir w .main).1 logFileName

/-! ## Trace properties and invariants -/

/-- In the trace, every occurrence of `b` has an occurrence of `a` somewhere before it. -/
def OnlyAfter (b a : Effect) (tr : List Effect) : Prop :=
  ∀ pre post, tr = pre ++ b :: post → a ∈ pre

/-- The position of the shutdown goroutine in its straight-line code. -/
def GorPC.rank : GorPC → Nat
  | .notStarted => 0
  | .waitQuit => 1
  | .logShutting => 2
  | .withTimeout => 3
  | .setKeepAlives => 4
  | .shutdownCall => 5
  | .inShutdown => 6
  | .shutdownFatal _ => 7
  | .closeDone => 8
  | .deferredCancel => 9
  | .finished => 10

/-- What the trace records about the return of `ListenAndServe`, by position of `main`. -/
def listenSeen : MainPC → List Effect → Prop
  | .listenFatal e, tr =>
    e ≠ .errServerClosed ∧ ∀ r, Effect.listenReturn r ∈ tr ↔ r = some e
  | .waitDone, tr => ∀ e, e ≠ .errServerClosed → Effect.listenReturn (some e) ∉ tr
  | .logStopped, tr => ∀ e, e ≠ .errServerClosed → Effect.listenReturn (some e) ∉ tr
  | _, tr => ∀ r, Effect.listenReturn r ∉ tr

/-- The effects that the sequential start-up can perform. -/
def Effect.isSequential : Effect → Bool
  | .openLogFile _ _ => true
  | .log .starting => true
  | .log (.pathFailed _) => true
  | .log (.openFailed _ _) => true
  | .log (.readFailed _) => true
  | .log (.unmarshalFailed _ _) => true
  | .log (.loaded _) => true
  | .log .broken => true
  | .print _ => true
  | .openConfig _ => true
  | .readConfig => true
  | .unmarshalConfig => true
  | .closeConfig => true
  | .handle _ _ => true
  | .newServer _ => true
  | .notify => true
  | .exit c => c == 1
  | _ => false

/-- The log lines written by the two calls of `logger.Fatalf` in the concurrent part. -/
def Effect.isFatalLog : Effect → Bool
  | .log (.shutdownFailed _) => true
  | .log (.listenFailed _ _) => true
  | _ => false

/-- Invariant of the concurrent part: process status. -/
structure InvProc (s : State) : Prop where
  exited_mem : ∀ c, s.exited = some c ↔ Effect.exit c ∈ s.trace
  exit_code : s.exited = none ∨ s.exited = some 0 ∨ s.exited = some 1
  no_panic : Effect.panic ∉ s.trace
  stopped_iff : Effect.log .stopped ∈ s.trace ↔ s.exited = some 0
  done_iff : s.done = true ↔ 9 ≤ s.gor.rank
  spawn_pc : s.gor = .notStarted ↔ s.main = .spawn
  startup_pc : s.main ≠ .startup
  exit_one : s.exited = some 1 → s.trace.any Effect.isFatalLog = true

/-- Invariant of the concurrent part: what the shutdown goroutine has done. -/
structure InvGor (s : State) : Prop where
  recvQuit_count : List.count Effect.recvQuit s.trace = if 2 ≤ s.gor.rank then 1 else 0
  keepAlive_count :
    List.count (Effect.setKeepAlivesEnabled false) s.trace = if 5 ≤ s.gor.rank then 1 else 0
  keepAlive_only : Effect.setKeepAlivesEnabled true ∉ s.trace
  shutdownCall_count :
    List.count (Effect.shutdownCall shutdownTimeout) s.trace = if 6 ≤ s.gor.rank then 1 else 0
  shutdownCall_only : ∀ d, d ≠ shutdownTimeout → Effect.shutdownCall d ∉ s.trace
  withTimeout_only : ∀ d, d ≠ shutdownTimeout → Effect.withTimeout d ∉ s.trace
  shutdownOk_count :
    List.count (Effect.shutdownReturn none) s.trace = if 8 ≤ s.gor.rank then 1 else 0
  shutdownErr : ∀ e, Effect.shutdownReturn (some e) ∈ s.trace ↔ s.gor = .shutdownFatal e
  closeDone_count : List.count Effect.closeDone s.trace = if 9 ≤ s.gor.rank then 1 else 0
  shutdownFailed_log : ∀ e, Effect.log (.shutdownFailed e) ∈ s.trace →
    s.gor = .shutdownFatal e ∧ s.exited = some 1

/-- Invariant of the concurrent part: what the main goroutine has done. -/
structure InvMain (conf : Config) (server : Server) (s : State) : Prop where
  notify_mem : Effect.notify ∈ s.trace
  quit_mem : 0 < s.quit → Effect.interrupt ∈ s.trace
  listen_addr : ∀ a, a ≠ server.Addr → Effect.listenAndServe a ∉ s.trace
  listen_seen : listenSeen s.main s.trace
  listenFailed_log : ∀ a e, Effect.log (.listenFailed a e) ∈ s.trace →
    a = conf.ListenAddr ∧ s.main = .listenFatal e ∧ s.exited = some 1
  recvDone_iff : Effect.recvDone ∈ s.trace ↔ s.main = .logStopped
  newServer_only : ∀ srv, srv ≠ server → Effect.newServer srv ∉ s.trace

/-- Invariant of the concurrent part: the order of effects in the trace. -/
structure InvOrder (s : State) : Prop where
  o_recvQuit : OnlyAfter .recvQuit .interrupt s.trace
  o_keepAlive : OnlyAfter (.setKeepAlivesEnabled false) .recvQuit s.trace
  o_shutdownCall :
    OnlyAfter (.shutdownCall shutdownTimeout) (.setKeepAlivesEnabled false) s.trace
  o_shutdownOk : OnlyAfter (.shutdownReturn none) (.shutdownCall shutdownTimeout) s.trace
  o_closeDone : OnlyAfter .closeDone (.shutdownReturn none) s.trace
  o_recvDone : OnlyAfter .recvDone .closeDone s.trace
  o_stopped : OnlyAfter (.log .stopped) .recvDone s.trace
  o_exit : OnlyAfter (.exit 0) (.log .stopped) s.trace
  o_listen : ∀ a, OnlyAfter (.listenAndServe a) .notify s.trace

/-- The invariant of the concurrent part. -/
structure Inv (conf : Config) (server : Server) (s : State) : Prop where
  proc : InvProc s
  gor : InvGor s
  main : InvMain conf server s
  order : InvOrder s

/-- The path of the configuration file as `loadConfig` computes it (line 52). -/
def configPath (w : World) : String :=
  w.join (getExeDir w .loadConfig).1 configFileName

/-- The log lines with which `loadConfig` reports a failure. -/
def LogLine.isLoadDiagnostic : LogLine → Bool
  | .pathFailed _ => true
  | .openFailed _ _ => true
  | .readFailed _ => true
  | .unmarshalFailed _ _ => true
  | _ => false

/-- A world in which everything succeeds and the configuration is not broken. -/
def worldOk : World :=
  { executable := fun _ => .ok "/opt/km/kookymonster"
    dir := fun _ => "/opt/km"
    abs := fun _ p => .ok p
    join := fun a b => a ++ "/" ++ b
    osOpenFile := fun _ => none
    osOpen := fun _ => none
    readAll := fun _ => .ok "listen_addr: :8080"
    unmarshal := fun _ c => .ok { c with ListenAddr := ":8080" } }

/-- A world whose configuration file sets the broken flag. -/
def worldBroken : World :=
  { worldOk with
    readAll := fun _ => .ok "broken: true"
    unmarshal := fun _ c => .ok { c with Broken := true } }

/-- A world in which the log file cannot be opened; the configuration file is fine. -/
def worldNoLog : World :=
  { worldOk with osOpenFile := fun _ => some (.other "permission denied") }

/-- A schedule: the goroutine is started, an interrupt arrives, the goroutine runs up to its
call of `Shutdown`. -/
def schedToShutdown : List Event :=
  [.main, .interrupt, .gor, .gor, .gor, .gor, .gor]

/-- A schedule: `main` runs up to its call of `ListenAndServe`. -/
def schedToListen : List Event :=
  [.main, .main, .main]

theorem onlyAfter_concat (b a x : Effect) (tr : List Effect) :
    OnlyAfter b a (tr ++ [x]) ↔ OnlyAfter b a tr ∧ (x = b → a ∈ tr) := by
  constructor
  · intro h
    refine ⟨?_, ?_⟩
    · intro pre post hp
      exact h pre (post ++ [x]) (by simp [hp])
    · intro hx
      exact h tr [] (by simp [hx])
  · rintro ⟨h1, h2⟩ pre post hp
    rcases List.eq_nil_or_concat post with rfl | ⟨post', y, rfl⟩
    · have := List.append_inj' hp (by simp)
      obtain ⟨rfl, hxb⟩ := this
      simp at hxb
      exact h2 hxb
    · have hp' : tr ++ [x] = (pre ++ b :: post') ++ [y] := by simp [hp]
      have := List.append_inj' hp' (by simp)
      exact h1 pre post' this.1

theorem onlyAfter_pair (b a x y : Effect) (tr : List Effect) :
    OnlyAfter b a (tr ++ [x, y]) ↔
      OnlyAfter b a tr ∧ (x = b → a ∈ tr) ∧ (y = b → a ∈ tr ∨ a = x) := by
  have h : tr ++ [x, y] = (tr ++ [x]) ++ [y] := by simp
  rw [h, onlyAfter_concat, onlyAfter_concat]
  simp [and_assoc]

theorem onlyAfter_of_not_mem {b a : Effect} {tr : List Effect} (hb : b ∉ tr) :
    OnlyAfter b a tr := by
  intro pre post hp
  exact absurd (by simp [hp]) hb

theorem onlyAfter_trans {c b a : Effect} {tr : List Effect} (h1 : OnlyAfter c b tr)
    (h2 : OnlyAfter b a tr) : OnlyAfter c a tr := by
  intro pre post hp
  have hb := h1 pre post hp
  obtain ⟨p1, p2, rfl⟩ := List.append_of_mem hb
  have := h2 p1 (p2 ++ c :: post) (by simp [hp])
  simp [this]

theorem count_concat (a x : Effect) (tr : List Effect) :
    List.count a (tr ++ [x]) = List.count a tr + if x = a then 1 else 0 := by
  rw [List.count_append, List.count_singleton]
  congr 1
  by_cases h : x = a <;> simp [h]

theorem mem_count_one {a : Effect} {tr : List Effect} {p : Prop} [Decidable p]
    (h : List.count a tr = if p then 1 else 0) : a ∈ tr ↔ p := by
  rw [← List.count_pos_iff, h]
  split <;> simp_all

/-! ## The invariant is preserved by every step -/

theorem invProc_step {conf : Config} {server : Server} {s : State} (h : InvProc s)
    (ev : Event) : InvProc (step conf server s ev) := by
  obtain ⟨m, g, q, d, ex, tr⟩ := s
  cases ex with
  | some c => simpa [step] using h
  | none =>
    have h0 := h
    obtain ⟨h1, h2, h3, h4, h5, h6, h7, h8⟩ := h
    cases ev with
    | interrupt =>
      simp only [step, stepInterrupt, State.emit]
      split <;> constructor <;> simp_all [Effect.isFatalLog]
    | main =>
      cases m <;> simp only [step, stepMain, State.emit, State.halt] <;> (try split) <;>
        (first | exact h0 | (constructor <;> simp_all [GorPC.rank, Effect.isFatalLog] <;> intro c <;> exact eq_comm))
    | gor =>
      cases g <;> simp only [step, stepGor, State.emit, State.halt] <;> (try split) <;>
        (first | exact h0 | (constructor <;> simp_all [GorPC.rank, Effect.isFatalLog] <;> intro c <;> exact eq_comm))
    | listenReturns r =>
      cases m <;> simp only [step, stepListenReturns, State.emit] <;>
        (first | exact h0 | skip)
      cases r <;> simp only [] <;> (try split) <;> constructor <;> simp_all [Effect.isFatalLog]
    | shutdownReturns r =>
      cases g <;> simp only [step, stepShutdownReturns, State.emit] <;>
        (first | exact h0 | skip)
      cases r <;> simp only [] <;> constructor <;> simp_all [GorPC.rank, Effect.isFatalLog]

set_option maxHeartbeats 1000000 in
theorem invGor_step {conf : Config} {server : Server} {s : State} (hp : InvProc s)
    (h : InvGor s) (ev : Event) : InvGor (step conf server s ev) := by
  obtain ⟨m, g, q, d, ex, tr⟩ := s
  cases ex with
  | some c => simpa [step] using h
  | none =>
    have h0 := h
    have hs := hp.spawn_pc
    have hd := hp.done_iff
    clear hp
    obtain ⟨h1, h2, h3, h4, h5, h6, h7, h8, h9, h10⟩ := h
    cases ev with
    | interrupt =>
      simp only [step, stepInterrupt, State.emit]
      split <;> constructor <;> simp_all [count_concat]
    | main =>
      cases m <;> simp only [step, stepMain, State.emit, State.halt] <;> (try split) <;>
        (first | exact h0 | (constructor <;> simp_all [GorPC.rank, count_concat]))
    | gor =>
      cases g <;> simp only [step, stepGor, State.emit, State.halt] <;> (try split) <;>
        (first | exact h0 | (constructor <;> simp_all [GorPC.rank, count_concat]))
    | listenReturns r =>
      cases m <;> simp only [step, stepListenReturns, State.emit] <;>
        (first | exact h0 | skip)
      cases r <;> simp only [] <;> (try split) <;> constructor <;> simp_all [count_concat]
    | shutdownReturns r =>
      cases g <;> simp only [step, stepShutdownReturns, State.emit] <;>
        (first | exact h0 | skip)
      cases r <;> simp only [] <;> constructor <;>
        (simp_all [GorPC.rank, count_concat]; try (intro c; exact eq_comm))

theorem listenSeen_concat (m : MainPC) (tr : List Effect) (x : Effect)
    (hx : ∀ r, Effect.listenReturn r ≠ x) : listenSeen m (tr ++ [x]) ↔ listenSeen m tr := by
  cases m <;> simp [listenSeen, hx]

theorem listenSeen_pair (m : MainPC) (tr : List Effect) (x y : Effect)
    (hx : ∀ r, Effect.listenReturn r ≠ x) (hy : ∀ r, Effect.listenReturn r ≠ y) :
    listenSeen m (tr ++ [x, y]) ↔ listenSeen m tr := by
  cases m <;> simp [listenSeen, hx, hy]

set_option maxHeartbeats 1000000 in
theorem invMain_step {conf : Config} {server : Server} {s : State}
    (h : InvMain conf server s) (ev : Event) : InvMain conf server (step conf server s ev) := by
  obtain ⟨m, g, q, d, ex, tr⟩ := s
  cases ex with
  | some c => simpa [step] using h
  | none =>
    have h0 := h
    obtain ⟨h1, h2, h3, h4, h5, h6, h7⟩ := h
    cases ev with
    | interrupt =>
      simp only [step, stepInterrupt, State.emit]
      split <;> constructor <;> simp_all [listenSeen_concat]
    | main =>
      cases m <;> simp only [step, stepMain, State.emit, State.halt] <;> (try split) <;>
        (first | exact h0 | (constructor <;> simp_all [listenSeen]))
    | gor =>
      cases g <;> simp only [step, stepGor, State.emit, State.halt] <;> (try split) <;>
        (first | exact h0 | (constructor <;> simp_all [listenSeen_concat, listenSeen_pair]))
    | listenReturns r =>
      cases m <;> simp only [step, stepListenReturns, State.emit] <;>
        (first | exact h0 | skip)
      cases r <;> simp only [] <;> (try split) <;> constructor <;> simp_all [listenSeen]
    | shutdownReturns r =>
      cases g <;> simp only [step, stepShutdownReturns, State.emit] <;>
        (first | exact h0 | skip)
      cases r <;> simp only [] <;> constructor <;> simp_all [listenSeen_concat]

set_option maxHeartbeats 1000000 in
theorem invOrder_step {conf : Config} {server : Server} {s : State} (hp : InvProc s)
    (hg : InvGor s) (hm : InvMain conf server s) (h : InvOrder s) (ev : Event) :
    InvOrder (step conf server s ev) := by
  obtain ⟨m, g, q, d, ex, tr⟩ := s
  cases ex with
  | some c => simpa [step] using h
  | none =>
    have h0 := h
    have hrq := mem_count_one hg.recvQuit_count
    have hka := mem_count_one hg.keepAlive_count
    have hsc := mem_count_one hg.shutdownCall_count
    have hso := mem_count_one hg.shutdownOk_count
    have hcd := mem_count_one hg.closeDone_count
    have hd := hp.done_iff
    have hrd := hm.recvDone_iff
    have hq := hm.quit_mem
    have hn := hm.notify_mem
    clear hp hg hm
    obtain ⟨h1, h2, h3, h4, h5, h6, h7, h8, h9⟩ := h
    cases ev with
    | interrupt =>
      simp only [step, stepInterrupt, State.emit]
      split <;> constructor <;> simp_all [onlyAfter_concat]
    | main =>
      cases m <;> simp only [step, stepMain, State.emit, State.halt] <;> (try split) <;>
        (first | exact h0 | (constructor <;> simp_all [onlyAfter_concat, onlyAfter_pair]))
    | gor =>
      cases g <;> simp only [step, stepGor, State.emit, State.halt] <;> (try split) <;>
        (first | exact h0 |
          (constructor <;> simp_all [onlyAfter_concat, onlyAfter_pair, GorPC.rank]))
    | listenReturns r =>
      cases m <;> simp only [step, stepListenReturns, State.emit] <;>
        (first | exact h0 | skip)
      cases r <;> simp only [] <;> (try split) <;> constructor <;> simp_all [onlyAfter_concat]
    | shutdownReturns r =>
      cases g <;> simp only [step, stepShutdownReturns, State.emit] <;>
        (first | exact h0 | skip)
      cases r <;> simp only [] <;> constructor <;> simp_all [onlyAfter_concat, GorPC.rank]

theorem inv_step {conf : Config} {server : Server} {s : State} (h : Inv conf server s)
    (ev : Event) : Inv conf server (step conf server s ev) :=
  ⟨invProc_step h.proc ev, invGor_step h.proc h.gor ev, invMain_step h.main ev,
    invOrder_step h.proc h.gor h.main h.order ev⟩

theorem inv_run {conf : Config} {server : Server} (sched : List Event) {s : State}
    (h : Inv conf server s) : Inv conf server (sched.foldl (step conf server) s) := by
  induction sched generalizing s with
  | nil => exact h
  | cons ev rest ih => exact ih (inv_step h ev)

/-! ## The sequential start-up -/

theorem loadConfig_sequential (w : World) : ∀ x ∈ (loadConfig w).1, x.isSequential = true := by
  unfold loadConfig
  intro x
  split
  · intro hx; simp at hx; rcases hx with rfl | rfl <;> rfl
  · simp only []
    split
    · intro hx; simp at hx; rcases hx with rfl | rfl | rfl <;> rfl
    · split
      · intro hx; simp at hx; rcases hx with rfl | rfl | rfl | rfl <;> rfl
      · split
        · intro hx; simp at hx; rcases hx with rfl | rfl | rfl | rfl | rfl <;> rfl
        · intro hx; simp at hx; rcases hx with rfl | rfl | rfl | rfl | rfl <;> rfl

theorem loadConfig_returned {w : World} {tc : List Effect} {conf : Config}
    (h : loadConfig w = (tc, .returned conf)) :
    ∃ p, tc = [.openConfig p, .readConfig, .unmarshalConfig, .log (.loaded p), .closeConfig] := by
  unfold loadConfig at h
  split at h
  · simp at h
  · simp only [] at h
    split at h
    · simp at h
    · split at h
      · simp at h
      · split at h
        · simp at h
        · simp only [Prod.mk.injEq] at h
          obtain ⟨rfl, -⟩ := h
          exact ⟨_, rfl⟩

theorem loadConfig_exited {w : World} {tc : List Effect} {code : Nat}
    (h : loadConfig w = (tc, .exited code)) :
    code = 1 ∧ ∃ pre line, tc = pre ++ [.log line, .exit 1] ∧
      line.isLoadDiagnostic = true ∧ (∀ srv, Effect.newServer srv ∉ pre) ∧
      Effect.notify ∉ pre := by
  unfold loadConfig at h
  split at h
  · simp only [Prod.mk.injEq, Outcome.exited.injEq] at h
    obtain ⟨rfl, rfl⟩ := h
    exact ⟨rfl, [], _, rfl, rfl, by simp, by simp⟩
  · simp only [] at h
    split at h
    · simp only [Prod.mk.injEq, Outcome.exited.injEq] at h
      obtain ⟨rfl, rfl⟩ := h
      exact ⟨rfl, [_], _, rfl, rfl, by simp, by simp⟩
    · split at h
      · simp only [Prod.mk.injEq, Outcome.exited.injEq] at h
        obtain ⟨rfl, rfl⟩ := h
        exact ⟨rfl, [_, _], _, rfl, rfl, by simp, by simp⟩
      · split at h
        · simp only [Prod.mk.injEq, Outcome.exited.injEq] at h
          obtain ⟨rfl, rfl⟩ := h
          exact ⟨rfl, [_, _, _], _, rfl, rfl, by simp, by simp⟩
        · simp at h

theorem startup_of_load_exit {w : World} {tc : List Effect} {code : Nat}
    (h : loadConfig w = (tc, .exited code)) :
    startup w = ([Effect.openLogFile (logPath w) (w.osOpenFile (logPath w)),
      .log .starting] ++ tc, .exited code) := by
  simp [startup, h, logPath]

theorem startup_of_logfile_error {w : World} {tc : List Effect} {conf : Config} {err : GoError}
    (h : loadConfig w = (tc, .returned conf)) (he : w.osOpenFile (logPath w) = some err) :
    startup w = ([Effect.openLogFile (logPath w) (some err), .log .starting] ++ tc ++
      [.print (logfileErrorText err), .exit 1], .exited 1) := by
  simp only [logPath] at he
  simp [startup, h, logPath, he]

theorem startup_of_broken {w : World} {tc : List Effect} {conf : Config}
    (h : loadConfig w = (tc, .returned conf)) (he : w.osOpenFile (logPath w) = none)
    (hb : conf.Broken = true) :
    startup w = ([Effect.openLogFile (logPath w) none, .log .starting] ++ tc ++
      [.log .broken, .exit 1], .exited 1) := by
  simp only [logPath] at he
  simp [startup, h, logPath, he, hb]

theorem startup_of_ok {w : World} {tc : List Effect} {conf : Config}
    (h : loadConfig w = (tc, .returned conf)) (he : w.osOpenFile (logPath w) = none)
    (hb : conf.Broken = false) :
    startup w = ([Effect.openLogFile (logPath w) none, .log .starting] ++ tc ++
      [.handle "/answer" .answer, .handle "/" .answer, .newServer (mkServer conf mkRouter),
        .notify], .returned (conf, mkServer conf mkRouter)) := by
  simp only [logPath] at he
  simp [startup, h, logPath, he, hb]

theorem startup_sequential (w : World) : ∀ x ∈ (startup w).1, x.isSequential = true := by
  have hl := loadConfig_sequential w
  rcases hlc : loadConfig w with ⟨tc, conf | code⟩
  · rw [hlc] at hl
    simp only at hl
    rcases he : w.osOpenFile (logPath w) with _ | err
    · cases hb : conf.Broken
      · rw [startup_of_ok hlc he hb]
        simpa [or_imp, forall_and, Effect.isSequential] using hl
      · rw [startup_of_broken hlc he hb]
        simpa [or_imp, forall_and, Effect.isSequential] using hl
    · rw [startup_of_logfile_error hlc he]
      simpa [or_imp, forall_and, Effect.isSequential] using hl
  · rw [hlc] at hl
    simp only at hl
    rw [startup_of_load_exit hlc]
    simpa [or_imp, forall_and, Effect.isSequential] using hl

theorem not_mem_of_sequential {t : List Effect} (h : ∀ x ∈ t, x.isSequential = true)
    (x : Effect) (hx : x.isSequential = false) : x ∉ t := by
  intro hm
  rw [h x hm] at hx
  exact absurd hx (by decide)

/-- The start-up either terminates the process with status 1 or hands over to the concurrent
part with the loaded configuration and the server built from it. -/
theorem startup_cases (w : World) :
    (∃ t pre, startup w = (t, .exited 1) ∧ t = pre ++ [.exit 1] ∧
      (∀ srv, Effect.newServer srv ∉ t) ∧ Effect.notify ∉ t) ∨
    (∃ t tc conf, startup w = (t, .returned (conf, mkServer conf mkRouter)) ∧
      loadConfig w = (tc, .returned conf) ∧ w.osOpenFile (logPath w) = none ∧
      conf.Broken = false ∧ Effect.notify ∈ t ∧ (∀ c, Effect.exit c ∉ t) ∧
      (∀ srv, srv ≠ mkServer conf mkRouter → Effect.newServer srv ∉ t)) := by
  have hl := loadConfig_sequential w
  rcases hlc : loadConfig w with ⟨tc, conf | code⟩
  · rw [hlc] at hl
    simp only at hl
    obtain ⟨p, hp⟩ := loadConfig_returned hlc
    rcases he : w.osOpenFile (logPath w) with _ | err
    · cases hb : conf.Broken
      · right
        refine ⟨_, tc, conf, startup_of_ok hlc he hb, rfl, rfl, hb, ?_, ?_, ?_⟩
        · simp
        · simp [hp]
        · intro srv hs
          simp [hp, hs]
      · left
        exact ⟨_, [.openLogFile (logPath w) none, .log .starting] ++ tc ++ [.log .broken],
          startup_of_broken hlc he hb, by simp, by simp [hp], by simp [hp]⟩
    · left
      exact ⟨_, [.openLogFile (logPath w) (some err), .log .starting] ++ tc ++
        [.print (logfileErrorText err)], startup_of_logfile_error hlc he, by simp, by simp [hp],
        by simp [hp]⟩
  · left
    obtain ⟨rfl, pre, line, rfl, -, h1, h2⟩ := loadConfig_exited hlc
    exact ⟨_, [.openLogFile (logPath w) (w.osOpenFile (logPath w)), .log .starting] ++ pre ++
      [.log line], startup_of_load_exit hlc, by simp, by simp [h1], by simp [h2]⟩

/-- A run that ends in the start-up. -/
theorem main_of_exited {w : World} {t : List Effect} {code : Nat}
    (h : startup w = (t, .exited code)) (sched : List Event) :
    main w sched = ⟨.startup, .notStarted, 0, false, some code, t⟩ := by
  simp [main, h]

/-- A run that reaches the concurrent part. -/
theorem main_of_returned {w : World} {t : List Effect} {conf : Config} {server : Server}
    (h : startup w = (t, .returned (conf, server))) (sched : List Event) :
    main w sched = sched.foldl (step conf server) (serving t) := by
  simp [main, h]

theorem inv_serving {conf : Config} {server : Server} {t : List Effect}
    (hseq : ∀ x ∈ t, x.isSequential = true) (hexit : ∀ c, Effect.exit c ∉ t)
    (hn : Effect.notify ∈ t) (hsrv : ∀ srv, srv ≠ server → Effect.newServer srv ∉ t) :
    Inv conf server (serving t) := by
  have nm := not_mem_of_sequential hseq
  refine ⟨⟨?_, ?_, ?_, ?_, ?_, ?_, ?_, ?_⟩, ⟨?_, ?_, ?_, ?_, ?_, ?_, ?_, ?_, ?_, ?_⟩,
    ⟨?_, ?_, ?_, ?_, ?_, ?_, ?_⟩, ⟨?_, ?_, ?_, ?_, ?_, ?_, ?_, ?_, ?_⟩⟩
  all_goals simp only [serving]
  all_goals first
    | exact hn
    | exact hsrv
    | exact onlyAfter_of_not_mem (nm _ rfl)
    | (intro a; exact onlyAfter_of_not_mem (nm _ rfl))
    | (simp [GorPC.rank, listenSeen, hexit, nm, Effect.isSequential]; done)
    | (simp only [GorPC.rank]; exact List.count_eq_zero.mpr (nm _ rfl))

/-- Every run either ended in the start-up with status 1, or reached the concurrent part
with the loaded configuration, where the invariant holds. -/
theorem main_cases (w : World) (sched : List Event) :
    (∃ t pre, startup w = (t, .exited 1) ∧ t = pre ++ [.exit 1] ∧
      (∀ srv, Effect.newServer srv ∉ t) ∧ Effect.notify ∉ t ∧
      (∀ x ∈ t, x.isSequential = true) ∧
      main w sched = ⟨.startup, .notStarted, 0, false, some 1, t⟩) ∨
    (∃ t tc conf, startup w = (t, .returned (conf, mkServer conf mkRouter)) ∧
      loadConfig w = (tc, .returned conf) ∧ w.osOpenFile (logPath w) = none ∧
      conf.Broken = false ∧ Inv conf (mkServer conf mkRouter) (main w sched)) := by
  have hseq := startup_sequential w
  rcases startup_cases w with ⟨t, pre, hs, ht, h1, h2⟩ |
    ⟨t, tc, conf, hs, hl, he, hb, hn, hx, hsrv⟩
  · left
    rw [hs] at hseq
    exact ⟨t, pre, hs, ht, h1, h2, hseq, main_of_exited hs sched⟩
  · right
    rw [hs] at hseq
    refine ⟨t, tc, conf, hs, hl, he, hb, ?_⟩
    rw [main_of_returned hs]
    exact inv_run sched (inv_serving hseq hx hn hsrv)

/-! ## The claims -/

/-- C5: in every run, the "Server stopped" log line and the return of `main` with status 0
occur only after an interrupt was delivered and received, keep-alives were disabled, and
`Shutdown`, called with the 30-second deadline, returned without error; `done` is closed at
most once, only after `Shutdown` returned without error; and `main` passes `<-done` only
after the close. -/
theorem stopped_only_after_graceful_shutdown (w : World) (sched : List Event) :
    OnlyAfter (.log .stopped) .interrupt (main w sched).trace ∧
    OnlyAfter (.log .stopped) .recvQuit (main w sched).trace ∧
    OnlyAfter (.log .stopped) (.setKeepAlivesEnabled false) (main w sched).trace ∧
    OnlyAfter (.log .stopped) (.shutdownCall (30 * second)) (main w sched).trace ∧
    OnlyAfter (.log .stopped) (.shutdownReturn none) (main w sched).trace ∧
    OnlyAfter (.log .stopped) .closeDone (main w sched).trace ∧
    OnlyAfter (.log .stopped) .recvDone (main w sched).trace ∧
    OnlyAfter (.exit 0) (.log .stopped) (main w sched).trace ∧
    ((main w sched).exited = some 0 ↔ Effect.exit 0 ∈ (main w sched).trace) ∧
    List.count Effect.closeDone (main w sched).trace ≤ 1 ∧
    OnlyAfter .closeDone (.shutdownReturn none) (main w sched).trace ∧
    OnlyAfter .recvDone .closeDone (main w sched).trace ∧
    LogLine.stopped.text = "Server stopped\n" := by
  rcases main_cases w sched with ⟨t, pre, -, -, -, -, hseq, he⟩ |
    ⟨t, tc, conf, -, -, -, -, hi⟩
  · have nm := not_mem_of_sequential hseq
    rw [he]
    refine ⟨?_, ?_, ?_, ?_, ?_, ?_, ?_, ?_, ?_, ?_, ?_, ?_, rfl⟩
    all_goals first
      | exact onlyAfter_of_not_mem (nm _ rfl)
      | simp [nm, Effect.isSequential, List.count_eq_zero.mpr (nm Effect.closeDone rfl)]
  · obtain ⟨hp, hg, hm, ho⟩ := hi
    have c1 := onlyAfter_trans ho.o_stopped ho.o_recvDone
    have c2 := onlyAfter_trans c1 ho.o_closeDone
    have c3 : OnlyAfter (.log .stopped) (.shutdownCall (30 * second)) (main w sched).trace :=
      onlyAfter_trans c2 ho.o_shutdownOk
    have c4 := onlyAfter_trans c3 ho.o_shutdownCall
    have c5 := onlyAfter_trans c4 ho.o_keepAlive
    have c6 := onlyAfter_trans c5 ho.o_recvQuit
    refine ⟨c6, c5, c4, c3, c2, c1, ho.o_stopped, ho.o_exit, hp.exited_mem 0, ?_,
      ho.o_closeDone, ho.o_recvDone, rfl⟩
    rw [hg.closeDone_count]
    split <;> simp

/-- C8: whatever interrupts are delivered and however the goroutines interleave, the goroutine
receives from `quit` at most once, keep-alives are disabled at most once and `Shutdown` is
called at most once, after keep-alives were disabled; `done` is closed at most once and no
panic occurs; and `signal.Notify` precedes the call of `ListenAndServe`. -/
theorem single_shutdown_sequence (w : World) (sched : List Event) :
    List.count Effect.recvQuit (main w sched).trace ≤ 1 ∧
    (∀ b, List.count (Effect.setKeepAlivesEnabled b) (main w sched).trace ≤ 1) ∧
    (∀ d, List.count (Effect.shutdownCall d) (main w sched).trace ≤ 1) ∧
    (∀ d, OnlyAfter (.shutdownCall d) (.setKeepAlivesEnabled false) (main w sched).trace) ∧
    List.count Effect.closeDone (main w sched).trace ≤ 1 ∧
    Effect.panic ∉ (main w sched).trace ∧
    (∀ a, OnlyAfter (.listenAndServe a) .notify (main w sched).trace) := by
  rcases main_cases w sched with ⟨t, pre, -, -, -, -, hseq, he⟩ |
    ⟨t, tc, conf, -, -, -, -, hi⟩
  · have nm := not_mem_of_sequential hseq
    rw [he]
    refine ⟨?_, ?_, ?_, ?_, ?_, ?_, ?_⟩
    · simp [List.count_eq_zero.mpr (nm Effect.recvQuit rfl)]
    · intro b
      simp [List.count_eq_zero.mpr (nm (Effect.setKeepAlivesEnabled b) rfl)]
    · intro d
      simp [List.count_eq_zero.mpr (nm (Effect.shutdownCall d) rfl)]
    · intro d
      exact onlyAfter_of_not_mem (nm _ rfl)
    · simp [List.count_eq_zero.mpr (nm Effect.closeDone rfl)]
    · exact nm _ rfl
    · intro a
      exact onlyAfter_of_not_mem (nm _ rfl)
  · obtain ⟨hp, hg, hm, ho⟩ := hi
    refine ⟨?_, ?_, ?_, ?_, ?_, hp.no_panic, ho.o_listen⟩
    · rw [hg.recvQuit_count]
      split <;> simp
    · intro b
      cases b
      · rw [hg.keepAlive_count]
        split <;> simp
      · simp [List.count_eq_zero.mpr hg.keepAlive_only]
    · intro d
      by_cases hd : d = shutdownTimeout
      · rw [hd, hg.shutdownCall_count]
        split <;> simp
      · simp [List.count_eq_zero.mpr (hg.shutdownCall_only d hd)]
    · intro d
      by_cases hd : d = shutdownTimeout
      · rw [hd]
        exact ho.o_shutdownCall
      · exact onlyAfter_of_not_mem (hg.shutdownCall_only d hd)
    · rw [hg.closeDone_count]
      split <;> simp

/-- C1: for every configuration and every request, both registered routes, "/" and
"/answer", are bound to the handler `answer`, and that handler, on the fresh response writer,
writes status 200 with Content-Type "text/plain; charset=utf-8" and X-Content-Type-Options
"nosniff" among the headers in force when the status is written, and the body
"The answer is: " followed by the answer text and one newline. -/
theorem answer_on_both_routes (conf : Config) (req : Request) :
    (mkServer conf mkRouter).Handler.registered "/" = some .answer ∧
    (mkServer conf mkRouter).Handler.registered "/answer" = some .answer ∧
    (Handler.answer.ServeHTTP req .fresh).status = some 200 ∧
    (Handler.answer.ServeHTTP req .fresh).sent.lookup "Content-Type" =
      some "text/plain; charset=utf-8" ∧
    (Handler.answer.ServeHTTP req .fresh).sent.lookup "X-Content-Type-Options" =
      some "nosniff" ∧
    (Handler.answer.ServeHTTP req .fresh).body = "The answer is: " ++ answerText ++ "\n" := by
  refine ⟨?_, ?_, ?_, ?_, ?_, ?_⟩ <;> rfl

/-- C2: when the configuration is loaded with the broken flag set, the process terminates
with status 1, the exit being the last effect of the run, and the run contains neither the
construction of the server nor `signal.Notify` nor a call of `ListenAndServe`. -/
theorem broken_config_exits_before_listen (w : World) (sched : List Event)
    (tc : List Effect) (conf : Config) (hl : loadConfig w = (tc, .returned conf))
    (hb : conf.Broken = true) :
    (main w sched).exited = some 1 ∧
    (∃ pre, (main w sched).trace = pre ++ [.exit 1]) ∧
    (∀ srv, Effect.newServer srv ∉ (main w sched).trace) ∧
    Effect.notify ∉ (main w sched).trace ∧
    (∀ a, Effect.listenAndServe a ∉ (main w sched).trace) := by
  rcases main_cases w sched with ⟨t, pre, -, ht, h1, h2, hseq, he⟩ |
    ⟨t, tc2, conf2, -, hl2, -, hb2, -⟩
  · rw [he]
    exact ⟨rfl, ⟨pre, ht⟩, h1, h2, fun a => not_mem_of_sequential hseq _ rfl⟩
  · rw [hl] at hl2
    simp only [Prod.mk.injEq, Outcome.returned.injEq] at hl2
    rw [← hl2.2, hb] at hb2
    exact absurd hb2 (by decide)

theorem broken_config_exits_before_listen_witness :
    (main worldBroken schedToListen).exited = some 1 ∧
    (∃ pre, (main worldBroken schedToListen).trace = pre ++ [.exit 1]) ∧
    (∀ srv, Effect.newServer srv ∉ (main worldBroken schedToListen).trace) ∧
    Effect.notify ∉ (main worldBroken schedToListen).trace ∧
    (∀ a, Effect.listenAndServe a ∉ (main worldBroken schedToListen).trace) :=
  broken_config_exits_before_listen worldBroken schedToListen
    [.openConfig "/opt/km/config.yml", .readConfig, .unmarshalConfig,
      .log (.loaded "/opt/km/config.yml"), .closeConfig]
    { ListenAddr := "", Broken := true } rfl rfl

/-- C4 (the code at the failing input): when the log file cannot be opened and the
configuration file is fine, `main` still writes the start-up log line and loads the
configuration completely before it tests the error of the open, prints and exits. -/
theorem logfile_failure_continues_startup :
    main worldNoLog [] =
      { main := .startup, gor := .notStarted, quit := 0, done := false, exited := some 1,
        trace := [.openLogFile "/opt/km/kookymonster.log" (some (.other "permission denied")),
          .log .starting,
          .openConfig "/opt/km/config.yml", .readConfig, .unmarshalConfig,
          .log (.loaded "/opt/km/config.yml"), .closeConfig,
          .print "ERROR - unable to open logfile: permission denied\n",
          .exit 1] } := by
  decide

/-- C9, refuted as stated: a run in which the log file cannot be opened while the
configuration loads with the broken flag false; the test of line 97 fires, the process
prints the error and exits with status 1, and no server is built or started. -/
theorem logfile_check_not_skipped :
    worldNoLog.osOpenFile (logPath worldNoLog) = some (.other "permission denied") ∧
    (∃ tc, loadConfig worldNoLog = (tc, .returned { ListenAddr := ":8080", Broken := false })) ∧
    (main worldNoLog schedToListen).exited = some 1 ∧
    Effect.print (logfileErrorText (.other "permission denied")) ∈
      (main worldNoLog schedToListen).trace ∧
    Effect.newServer (mkServer { ListenAddr := ":8080", Broken := false } mkRouter) ∉
      (main worldNoLog schedToListen).trace ∧
    Effect.listenAndServe ":8080" ∉ (main worldNoLog schedToListen).trace := by
  refine ⟨rfl, ⟨_, rfl⟩, ?_, ?_, ?_, ?_⟩ <;> decide

/-- C9, amended: the test of the log file error is not skipped. The variable `err` of `main`
holds the error of `os.OpenFile` when it is tested (`loadConfig` has its own local `err`):
whenever opening the log file fails and the configuration loads (whatever its broken flag),
the test fires, the process prints the error and exits with status 1 as its last two
effects, and no server is built or started. -/
theorem logfile_check_fires (w : World) (sched : List Event) (tc : List Effect)
    (conf : Config) (err : GoError) (he : w.osOpenFile (logPath w) = some err)
    (hl : loadConfig w = (tc, .returned conf)) :
    (main w sched).exited = some 1 ∧
    (∃ pre, (main w sched).trace = pre ++ [.print (logfileErrorText err), .exit 1]) ∧
    (∀ srv, Effect.newServer srv ∉ (main w sched).trace) ∧
    Effect.notify ∉ (main w sched).trace ∧
    (∀ a, Effect.listenAndServe a ∉ (main w sched).trace) := by
  have hs := startup_of_logfile_error hl he
  have hx := main_of_exited hs sched
  obtain ⟨p, hp⟩ := loadConfig_returned hl
  rw [hx]
  refine ⟨rfl, ⟨_, rfl⟩, ?_, ?_, ?_⟩ <;> simp [hp]

theorem logfile_check_fires_witness :
    (main worldNoLog schedToShutdown).exited = some 1 ∧
    (∃ pre, (main worldNoLog schedToShutdown).trace =
      pre ++ [.print (logfileErrorText (.other "permission denied")), .exit 1]) ∧
    (∀ srv, Effect.newServer srv ∉ (main worldNoLog schedToShutdown).trace) ∧
    Effect.notify ∉ (main worldNoLog schedToShutdown).trace ∧
    (∀ a, Effect.listenAndServe a ∉ (main worldNoLog schedToShutdown).trace) :=
  logfile_check_fires worldNoLog schedToShutdown _ { ListenAddr := ":8080", Broken := false }
    (.other "permission denied") rfl rfl

end Kookymonster
